import Mathlib

/-!
Verification development for the VerifAI comparison endpoint
(`src/app/api/compare/route.ts`).  The pure helpers of the route
(`parseEigenMessage`, `uuidToSeed`, `clamp`) are embedded directly; the
request handler `POST` and its fan-out over the two upstream providers are
embedded as pure functions over an explicit network oracle, with the
semantics of JavaScript `Promise.all` modelled by a positional collector
carrying completion times.
-/

namespace Verifai

/-- Model of the JavaScript whitespace class: the WhiteSpace and
LineTerminator code points of ECMAScript, as used by
`String.prototype.trim` and by the character class of the cleanup regexes. -/
def isWs (c : Char) : Bool :=
  decide (c.toNat = 9 ∨ c.toNat = 10 ∨ c.toNat = 11 ∨ c.toNat = 12 ∨ c.toNat = 13 ∨
    c.toNat = 32 ∨ c.toNat = 160 ∨ c.toNat = 5760 ∨ (8192 ≤ c.toNat ∧ c.toNat ≤ 8202) ∨
    c.toNat = 8232 ∨ c.toNat = 8233 ∨ c.toNat = 8239 ∨ c.toNat = 8287 ∨
    c.toNat = 12288 ∨ c.toNat = 65279)

/-- JavaScript `String.prototype.trim` on a list of characters: remove
leading and trailing whitespace. -/
def listTrim (l : List Char) : List Char :=
  ((l.dropWhile isWs).reverse.dropWhile isWs).reverse

/-- JavaScript `String.prototype.trim`. -/
def jsTrim (s : String) : String :=
  ⟨listTrim s.data⟩

/-- The literal marker `<|end|>` searched for by `parseEigenMessage`
(route.ts line 289). -/
def endTag : List Char :=
  "<|end|>".data

/-- Whether the marker `<|end|>` occurs in `l` starting at index `i`. -/
def isEndAt (l : List Char) (i : Nat) : Bool :=
  (l.drop i).take 7 = endTag

/-- Scan indices `n, n-1, …, 0` for the marker, returning the first (hence
largest) index found.  This is `String.prototype.lastIndexOf("<|end|>")`. -/
def lastEndIdxAux (l : List Char) : Nat → Option Nat
  | 0 => if isEndAt l 0 then some 0 else none
  | n + 1 => if isEndAt l (n + 1) then some (n + 1) else lastEndIdxAux l n

/-- Index of the last occurrence of `<|end|>` in `l`, or `none`
(`lastIndexOf` returning `-1` in the source, route.ts line 289). -/
def lastEndIdx? (l : List Char) : Option Nat :=
  lastEndIdxAux l l.length

/-- Route.ts line 290:
`lastEndTag !== -1 ? trimmed.slice(lastEndTag + 6) : trimmed`.
Note the source slices at offset `+ 6` although the marker `<|end|>` is
seven characters long. -/
def withoutPreceding (l : List Char) : List Char :=
  match lastEndIdx? l with
  | some i => l.drop (i + 6)
  | none => l

/-- The same step as the specification words it ("discard everything up to
and including that marker and keep only the remainder"): slice at the full
marker length `+ 7`.  Stated only to compare with `withoutPreceding`. -/
def withoutPrecedingSpec (l : List Char) : List Char :=
  match lastEndIdx? l with
  | some i => l.drop (i + 7)
  | none => l

/-- Lazy close of the tag regex `<\|[^>]+?\|>` after an opening `<|` has
been consumed: `seen` records whether at least one inner (non-`>`)
character has been consumed; the match closes at the earliest `|>` once
`seen` holds, fails on a bare `>` or at the end of input, and otherwise
consumes one inner character.  Returns the text after the closing `|>`. -/
def tagClose : Bool → List Char → Option (List Char)
  | true, '|' :: '>' :: t => some t
  | _, [] => none
  | _, '>' :: _ => none
  | seen, _ :: rest =>
    let _ := seen
    tagClose true rest

/-- One global pass of `withoutPreceding.replace(/<\|[^>]+?\|>/g, "")`
(route.ts line 292).  JavaScript `replace` scans left to right, resumes
after each removed match and never rescans produced text.  The `fuel`
argument only drives structural recursion: every step removes at least one
character from the list, so the initial fuel `l.length` (see `replaceTags`)
is never exhausted before the list is empty, and the fuel-out arm is
unreachable. -/
def tagsGo : Nat → List Char → List Char
  | 0, l => l
  | _ + 1, [] => []
  | fuel + 1, '<' :: '|' :: rest =>
    match tagClose false rest with
    | some t => tagsGo fuel t
    | none => '<' :: tagsGo fuel ('|' :: rest)
  | fuel + 1, c :: rest => c :: tagsGo fuel rest

/-- Remove every match of `<\|[^>]+?\|>` from `l`, left to right. -/
def replaceTags (l : List Char) : List Char :=
  tagsGo l.length l

/-- Per-line blockquote stripping, `line.replace(/^\s*>\s?/, "")`
(route.ts line 296): if the line is optional whitespace followed by `>`,
drop that whitespace, the `>`, and at most one following whitespace
character; otherwise leave the line unchanged. -/
def stripQuote (l : List Char) : List Char :=
  match l.dropWhile isWs with
  | '>' :: r =>
    match r with
    | c :: r2 => if isWs c then r2 else c :: r2
    | [] => []
  | _ => l

/-- `parseEigenMessage` (route.ts lines 283–299) on a list of characters:
trim; return unchanged if empty; cut at the last `<|end|>` marker; remove
the remaining `<|…|>` tags; strip one blockquote level per line; trim. -/
def parseEigenList (raw : List Char) : List Char :=
  let trimmed := listTrim raw
  if trimmed = [] then trimmed
  else
    let cleanedTags := replaceTags (withoutPreceding trimmed)
    listTrim (List.intercalate ['\n'] ((cleanedTags.splitOn '\n').map stripQuote))

/-- The deterministic-provider text cleanup `parseEigenMessage`
(route.ts lines 283–299). -/
def parseEigenMessage (s : String) : String :=
  ⟨parseEigenList s.data⟩

/-- Hexadecimal digit predicate of JavaScript `parseInt(·, 16)`:
`0`–`9`, `a`–`f`, `A`–`F`. -/
def isHexDigit (c : Char) : Bool :=
  decide ((48 ≤ c.toNat ∧ c.toNat ≤ 57) ∨ (97 ≤ c.toNat ∧ c.toNat ≤ 102) ∨
    (65 ≤ c.toNat ∧ c.toNat ≤ 70))

/-- Decimal digit predicate of JavaScript `parseInt(·, 10)`. -/
def isDecDigit (c : Char) : Bool :=
  decide (48 ≤ c.toNat ∧ c.toNat ≤ 57)

/-- Value of a single hexadecimal digit (0 for non-digits). -/
def hexDigitVal (c : Char) : Nat :=
  if 48 ≤ c.toNat ∧ c.toNat ≤ 57 then c.toNat - 48
  else if 97 ≤ c.toNat ∧ c.toNat ≤ 102 then c.toNat - 87
  else if 65 ≤ c.toNat ∧ c.toNat ≤ 70 then c.toNat - 55
  else 0

/-- Value of a run of hexadecimal digits, most significant first. -/
def hexVal (l : List Char) : Nat :=
  l.foldl (fun acc c => 16 * acc + hexDigitVal c) 0

/-- Value of a run of decimal digits, most significant first. -/
def decVal (l : List Char) : Nat :=
  l.foldl (fun acc c => 10 * acc + (c.toNat - 48)) 0

/-- Optional leading sign of JavaScript `parseInt`: returns the
negativity flag and the remaining characters. -/
def signSplit (l : List Char) : Bool × List Char :=
  match l with
  | c :: t => if c = '-' then (true, t) else if c = '+' then (false, t) else (false, l)
  | [] => (false, l)

/-- With radix 16, JavaScript `parseInt` skips a leading `0x` or `0X`. -/
def strip0x (l : List Char) : List Char :=
  match l with
  | c0 :: c1 :: t => if c0 = '0' ∧ (c1 = 'x' ∨ c1 = 'X') then t else l
  | _ => l

/-- JavaScript `Number.parseInt(s, 16)`: skip leading whitespace, read an
optional sign, skip an optional `0x`/`0X`, then take the longest run of
hexadecimal digits; `none` models the `NaN` result when that run is
empty. -/
def parseIntHex (l : List Char) : Option Int :=
  let s1 := l.dropWhile isWs
  let p := signSplit s1
  let ds := (strip0x p.2).takeWhile isHexDigit
  if ds = [] then none
  else some (if p.1 then -(hexVal ds : Int) else (hexVal ds : Int))

/-- JavaScript `Number.parseInt(s, 10)`: as `parseIntHex` but with decimal
digits and no `0x` prefix. -/
def parseIntDec (l : List Char) : Option Int :=
  let s1 := l.dropWhile isWs
  let p := signSplit s1
  let ds := p.2.takeWhile isDecDigit
  if ds = [] then none
  else some (if p.1 then -(decVal ds : Int) else (decVal ds : Int))

/-- JavaScript `ToInt32`: reduce modulo `2^32` into the signed 32-bit
range.  `Number.parseInt` results reaching it here are integral, so the
integer-only conversion is exact. -/
def jsToInt32 (v : Int) : Int :=
  let m := v % 2 ^ 32
  if m < 2 ^ 31 then m else m - 2 ^ 32

/-- JavaScript `value & 0x7fffffff`: both operands pass through `ToInt32`,
then the low 31 bits are kept, a non-negative result. -/
def jsAnd31 (v : Int) : Nat :=
  ((jsToInt32 v) % 2 ^ 31).toNat

/-- `uuidToSeed` (route.ts lines 305–309): remove every hyphen, keep the
first 8 characters, parse them as a hexadecimal unsigned integer (`|| 0`
turns a `NaN` parse into 0), and mask to the low 31 bits. -/
def uuidToSeed (uuid : String) : Nat :=
  let hex := (uuid.data.filter fun c => c ≠ '-').take 8
  let value := (parseIntHex hex).getD 0
  jsAnd31 value

/-- JavaScript numbers as they matter to this route: `NaN`, the two
infinities, and finite values (every finite JSON number is rational). -/
inductive JSNum where
  | nan
  | posInf
  | negInf
  | fin (q : ℚ)
  deriving DecidableEq

/-- JavaScript `Math.floor`: identity on `NaN` and the infinities,
mathematical floor on finite values. -/
def jsFloor : JSNum → JSNum
  | .nan => .nan
  | .posInf => .posInf
  | .negInf => .negInf
  | .fin q => .fin ⌊q⌋

/-- JavaScript `Math.max` of two numbers: `NaN` propagates, `+∞` wins,
`-∞` loses. -/
def jsMax : JSNum → JSNum → JSNum
  | .nan, _ => .nan
  | _, .nan => .nan
  | .posInf, _ => .posInf
  | _, .posInf => .posInf
  | .negInf, b => b
  | a, .negInf => a
  | .fin a, .fin b => .fin (max a b)

/-- JavaScript `Math.min` of two numbers: `NaN` propagates, `-∞` wins,
`+∞` loses. -/
def jsMin : JSNum → JSNum → JSNum
  | .nan, _ => .nan
  | _, .nan => .nan
  | .negInf, _ => .negInf
  | _, .negInf => .negInf
  | .posInf, b => b
  | a, .posInf => a
  | .fin a, .fin b => .fin (min a b)

/-- `clamp` (route.ts lines 301–303): `Math.min(Math.max(value, min), max)`. -/
def clamp (value mn mx : JSNum) : JSNum :=
  jsMin (jsMax value mn) mx

/-- Modelled from the spec: `MIN_RUNS` is imported from `@/lib/constants`,
which is not part of the provided sources; the spec gives "configurable
bounds, e.g. 1 and 8". -/
def MIN_RUNS : ℚ := 1

/-- Modelled from the spec: `MAX_RUNS` from `@/lib/constants`, see
`MIN_RUNS`. -/
def MAX_RUNS : ℚ := 8

/-- The effective run count of a request (route.ts line 72):
`clamp(Math.floor(body.runs ?? 4), MIN_RUNS, MAX_RUNS)`, where `none`
models an absent (or `null`) `runs` field. -/
def effRuns (runs? : Option JSNum) : JSNum :=
  clamp (jsFloor (runs?.getD (.fin 4))) (.fin MIN_RUNS) (.fin MAX_RUNS)

/-- The array length `Array.from({length: runs}, …)` uses for a clamped
runs value: `NaN` gives 0 and a finite value is truncated with negatives
clamped to 0.  After `effRuns` with the finite bounds above the value is
never an infinity (an infinite length would throw; the arms are present
only for totality). -/
def jsLength : JSNum → Nat
  | .nan => 0
  | .posInf => 0
  | .negInf => 0
  | .fin q => ⌊q⌋.toNat

/-- A settled promise: the (abstract) completion time and the outcome.
Rejections carry an error of type `E`, fulfilments a value of type `A`. -/
structure Settled (E A : Type) where
  time : Nat
  result : Except E A

/-- Map a function over the fulfilment value of a settled promise. -/
def Settled.mapOk {E A B : Type} (s : Settled E A) (f : A → B) : Settled E B :=
  ⟨s.time, s.result.map f⟩

/-- `Promise.all` of two promises: if either rejects, the pair rejects
with the earlier rejection (ties broken toward the first); if both
fulfil, the pair fulfils with both values once the later one settles. -/
def Settled.all2 {E A B : Type} (p : Settled E A) (q : Settled E B) : Settled E (A × B) :=
  match p.result, q.result with
  | .error e, .error f => if q.time < p.time then ⟨q.time, .error f⟩ else ⟨p.time, .error e⟩
  | .error e, .ok _ => ⟨p.time, .error e⟩
  | .ok _, .error f => ⟨q.time, .error f⟩
  | .ok a, .ok b => ⟨max p.time q.time, .ok (a, b)⟩

/-- `Promise.all` of a list of promises: the fulfilment value keeps the
positional order of the list, never the completion order; any rejection
rejects the whole collection with the earliest rejection. -/
def promiseAll {E A : Type} : List (Settled E A) → Settled E (List A)
  | [] => ⟨0, .ok []⟩
  | p :: ps => (p.all2 (promiseAll ps)).mapOk fun x => x.1 :: x.2

/-- Whether a settled promise rejected. -/
def settledFailed {E A : Type} (s : Settled E A) : Bool :=
  match s.result with
  | .error _ => true
  | .ok _ => false

/-- First choice of an upstream chat response.  The optional `content`
stands for the source's `choice?.message?.content` chain (an absent
`message` and an absent `content` are indistinguishable there). -/
structure ChatChoice where
  content : Option String
  finish_reason : Option String
  deriving DecidableEq

/-- Usage block of an upstream chat response, passed through as-is. -/
structure Usage where
  prompt_tokens : Option Nat
  completion_tokens : Option Nat
  total_tokens : Option Nat
  deriving DecidableEq

/-- Parsed JSON body of an upstream chat response (route.ts lines 29–37). -/
structure ChatResponse where
  id : Option String
  choices : List ChatChoice
  usage : Option Usage
  deriving DecidableEq

/-- Outcome of one `fetch` to an upstream provider, as the network oracle
reports it: a 2xx response with a parsed body, a non-2xx status with its
body text, or a transport-level failure (connection error, abort, or a
body that fails to parse as JSON). -/
inductive FetchOutcome where
  | okResp (data : ChatResponse)
  | httpError (status : Nat) (body : String)
  | transportError (msg : String)
  deriving DecidableEq

/-- One entry of a group's `responses` array (route.ts lines 177–182 and
260–265). -/
structure RunResult where
  responseId : Option String
  message : String
  finishReason : Option String
  usage : Option Usage
  deriving DecidableEq

/-- One of the three result groups of a comparison (route.ts lines
189–193 and 222–228).  The OpenAI group leaves `seed` and `seedUuid`
absent. -/
structure GroupResult where
  model : String
  seed : Option JSNum
  runs : JSNum
  responses : List RunResult
  seedUuid : Option String
  deriving DecidableEq

/-- `extractMessage` (route.ts lines 278–281):
`data.choices?.[0]?.message?.content?.trim()`. -/
def extractMessage (data : ChatResponse) : Option String :=
  (data.choices.head?.bind fun c => c.content).map jsTrim

/-- The `responses` entry built from a successful OpenAI call
(route.ts lines 176–182): a missing message yields the empty string. -/
def openaiRunResult (data : ChatResponse) : RunResult :=
  { responseId := data.id
    message := (extractMessage data).getD ""
    finishReason := data.choices.head?.bind fun c => c.finish_reason
    usage := data.usage }

/-- The `responses` entry built from a successful EigenAI call
(route.ts lines 260–265): the message additionally passes through
`parseEigenMessage`. -/
def eigenRunResult (data : ChatResponse) : RunResult :=
  { responseId := data.id
    message := parseEigenMessage ((extractMessage data).getD "")
    finishReason := data.choices.head?.bind fun c => c.finish_reason
    usage := data.usage }

/-- `OPENAI_TIMEOUT_MS` (route.ts line 39). -/
def OPENAI_TIMEOUT_MS : Nat := 20000

/-- One OpenAI run (route.ts lines 151–186) given the oracle's fetch
outcome and completion time: the `AbortController` aborts the call at
`OPENAI_TIMEOUT_MS`, so a call that would complete then or later rejects;
otherwise a non-2xx status rejects with `OpenAI HTTP <status>: <body>`, a
transport failure rejects with its message, and a 2xx response fulfils
with the extracted run result. -/
def openaiCall (call : FetchOutcome × Nat) : Settled String RunResult :=
  if OPENAI_TIMEOUT_MS ≤ call.2 then
    ⟨OPENAI_TIMEOUT_MS, .error "The operation was aborted."⟩
  else
    match call.1 with
    | .okResp data => ⟨call.2, .ok (openaiRunResult data)⟩
    | .httpError status b => ⟨call.2, .error s!"OpenAI HTTP {status}: {b}"⟩
    | .transportError msg => ⟨call.2, .error msg⟩

/-- One EigenAI run, `callEigenAiRun` (route.ts lines 231–266): no
client-side timeout; non-2xx rejects with `EigenAI HTTP <status>: <body>`. -/
def eigenCall (call : FetchOutcome × Nat) : Settled String RunResult :=
  match call.1 with
  | .okResp data => ⟨call.2, .ok (eigenRunResult data)⟩
  | .httpError status b => ⟨call.2, .error s!"EigenAI HTTP {status}: {b}"⟩
  | .transportError msg => ⟨call.2, .error msg⟩

/-- `collectOpenAiRuns` (route.ts lines 141–194): issue
`Array.from({length: runs})` parallel calls, await them with
`Promise.all`, and wrap the positional results with the model and the
runs value.  The network oracle `net` gives call `i`'s fetch outcome and
completion time. -/
def collectOpenAiRuns (model : String) (runsVal : JSNum)
    (net : Nat → FetchOutcome × Nat) : Settled String GroupResult :=
  let n := jsLength runsVal
  (promiseAll ((List.range n).map fun i => openaiCall (net i))).mapOk
    fun rs => { model := model, seed := none, runs := runsVal, responses := rs, seedUuid := none }

/-- `collectEigenRuns` (route.ts lines 196–229): as `collectOpenAiRuns`
but through `callEigenAiRun`, and the group carries its seed and the
optional seed UUID. -/
def collectEigenRuns (model : String) (seed : JSNum) (runsVal : JSNum)
    (seedUuid : Option String) (net : Nat → FetchOutcome × Nat) : Settled String GroupResult :=
  let n := jsLength runsVal
  (promiseAll ((List.range n).map fun i => eigenCall (net i))).mapOk
    fun rs => { model := model, seed := some seed, runs := runsVal, responses := rs, seedUuid := seedUuid }

/-- Modelled from the spec: `OPENAI_MODEL` is imported from
`@/lib/constants`, which is not among the provided sources; the spec says
only that model identifiers are fixed per deployment, and no claim depends
on the value. -/
def OPENAI_MODEL : String := "provider-a-model"

/-- Modelled from the spec: `EIGENAI_MODEL` from `@/lib/constants`, see
`OPENAI_MODEL`. -/
def EIGENAI_MODEL : String := "provider-b-model"

/-- The request body as parsed from JSON (route.ts lines 14–20).  A field
is `none` when absent or `null`; `safeJson` turning a malformed body into
an empty object is modelled by the caller passing a body with every field
`none`. -/
structure CompareRequest where
  prompt : Option String
  runs : Option JSNum
  eigenSeed : Option JSNum
  openaiMaxTokens : Option JSNum
  eigenMaxTokens : Option JSNum
  deriving DecidableEq

/-- The environment variables the route reads; `none` models an unset
variable. -/
structure Env where
  openaiKey : Option String
  eigenKey : Option String
  defaultSeedStr : Option String
  deriving DecidableEq

/-- JavaScript falsiness of `process.env.X` (route.ts lines 55 and 62):
unset, or set to the empty string. -/
def falsy : Option String → Bool
  | none => true
  | some s => s.isEmpty

/-- The seed used for the deterministic-seeded group (route.ts lines
73–79): a finite caller-supplied `eigenSeed` is floored; otherwise
`parseInt(process.env.NEXT_PUBLIC_EIGENAI_DEFAULT_SEED ?? "42", 10)`,
which is `NaN` when that variable parses to no digits. -/
def eigenSeedVal (body : CompareRequest) (env : Env) : JSNum :=
  match body.eigenSeed with
  | some (.fin q) => .fin ⌊q⌋
  | _ =>
    match parseIntDec (env.defaultSeedStr.getD "42").data with
    | some v => .fin (v : ℚ)
    | none => .nan

/-- The full response of one comparison (route.ts lines 126–131). -/
structure ComparePayload where
  prompt : String
  openai : GroupResult
  eigen : GroupResult
  eigenRandom : GroupResult
  deriving DecidableEq

/-- An HTTP response of the route: `NextResponse.json` with a status and
either the comparison payload or an `{error}` body. -/
inductive ApiResponse where
  | ok (status : Nat) (payload : ComparePayload)
  | err (status : Nat) (error : String)
  deriving DecidableEq

/-- The payload of a 200 response, if any. -/
def ApiResponse.okPayload? : ApiResponse → Option ComparePayload
  | .ok _ p => some p
  | .err _ _ => none

/-- The `POST` handler (route.ts lines 41–139) over explicit inputs: the
parsed body, the environment, the UUID produced by `randomUUID()`, and
one network oracle per group giving each call's fetch outcome and
completion time.  Returns the HTTP response together with the number of
upstream calls issued (0 before the fan-out, `3 × n` once the three
groups are started).  The outbound request parameters absorbed by the
oracles — endpoint URLs, max-token values, and the JSON call bodies —
are not tracked, since no observable behaviour of the route depends on
them. -/
def POST (body : CompareRequest) (env : Env) (uuid : String)
    (net1 net2 net3 : Nat → FetchOutcome × Nat) : ApiResponse × Nat :=
  match body.prompt.map jsTrim with
  | none => (.err 400 "Prompt is required.", 0)
  | some prompt =>
    if prompt = "" then (.err 400 "Prompt is required.", 0)
    else if falsy env.openaiKey then
      (.err 500 "Missing OPENAI_API_KEY environment variable.", 0)
    else if falsy env.eigenKey then
      (.err 500 "Missing EIGENAI_API_KEY environment variable.", 0)
    else
      let runsVal := effRuns body.runs
      let n := jsLength runsVal
      let seedVal := eigenSeedVal body env
      let randomSeed := uuidToSeed uuid
      let g1 := collectOpenAiRuns OPENAI_MODEL runsVal net1
      let g2 := collectEigenRuns EIGENAI_MODEL seedVal runsVal none net2
      let g3 := collectEigenRuns EIGENAI_MODEL (.fin (randomSeed : ℚ)) runsVal (some uuid) net3
      match (g1.all2 (g2.all2 g3)).result with
      | .error _ => (.err 500 "Failed to compare models. Check server logs for details.", 3 * n)
      | .ok (a, b, c) =>
        (.ok 200 { prompt := prompt, openai := a, eigen := b, eigenRandom := c }, 3 * n)

lemma lastEndIdxAux_isEndAt (l : List Char) :
    ∀ n i, lastEndIdxAux l n = some i → isEndAt l i = true := by
  intro n
  induction n with
  | zero =>
    intro i h
    cases hE : isEndAt l 0 with
    | false => simp [lastEndIdxAux, hE] at h
    | true =>
      simp [lastEndIdxAux, hE] at h
      subst h
      exact hE
  | succ n ih =>
    intro i h
    cases hE : isEndAt l (n + 1) with
    | false =>
      simp only [lastEndIdxAux, hE, Bool.false_eq_true, if_false] at h
      exact ih i h
    | true =>
      simp [lastEndIdxAux, hE] at h
      subst h
      exact hE

lemma lastEndIdxAux_ge (l : List Char) :
    ∀ n i, lastEndIdxAux l n = some i → ∀ j, j ≤ n → isEndAt l j = true → j ≤ i := by
  intro n
  induction n with
  | zero =>
    intro i h j hj _
    interval_cases j
    cases hE : isEndAt l 0 with
    | false => simp [lastEndIdxAux, hE] at h
    | true => omega
  | succ n ih =>
    intro i h j hj hjE
    cases hE : isEndAt l (n + 1) with
    | false =>
      simp only [lastEndIdxAux, hE, Bool.false_eq_true, if_false] at h
      rcases Nat.lt_succ_iff_lt_or_eq.mp (Nat.lt_succ_of_le hj) with h' | h'
      · exact ih i h j (by omega) hjE
      · subst h'
        rw [hjE] at hE
        cases hE
    | true =>
      simp [lastEndIdxAux, hE] at h
      omega

lemma isEndAt_add_le_length (l : List Char) (j : Nat) (h : isEndAt l j = true) :
    j + 7 ≤ l.length := by
  rw [isEndAt, decide_eq_true_eq] at h
  have hlen := congrArg List.length h
  simp only [List.length_take, List.length_drop] at hlen
  have : endTag.length = 7 := by decide
  omega

/-- C2, amended: when the marker `<|end|>` occurs, `lastEndIdx?` finds its
last occurrence, but the step keeps the final `>` of the marker: the kept
text is `'>'` followed by the text strictly after the marker (the source
slices at `+ 6` although the marker is 7 characters long); when the marker
is absent the whole text is kept. -/
theorem c2_amended_marker_step :
    (∀ (l : List Char) (i : Nat), lastEndIdx? l = some i →
      isEndAt l i = true ∧ (∀ j, isEndAt l j = true → j ≤ i) ∧
      withoutPreceding l = '>' :: l.drop (i + 7)) ∧
    (∀ l : List Char, lastEndIdx? l = none → withoutPreceding l = l) := by
  constructor
  · intro l i h
    have hEnd : isEndAt l i = true := lastEndIdxAux_isEndAt l l.length i h
    refine ⟨hEnd, ?_, ?_⟩
    · intro j hj
      exact lastEndIdxAux_ge l l.length i h j
        (by have := isEndAt_add_le_length l j hj; omega) hj
    · have htake : (l.drop i).take 7 = endTag := by
        have := hEnd
        rwa [isEndAt, decide_eq_true_eq] at this
      have hd : endTag ++ (l.drop i).drop 7 = l.drop i := by
        rw [← htake]
        exact List.take_append_drop 7 (l.drop i)
      have h6 : l.drop (i + 6) = (endTag ++ (l.drop i).drop 7).drop 6 := by
        rw [hd, List.drop_drop]
      rw [lastEndIdx?] at h
      rw [withoutPreceding, lastEndIdx?, h]
      show List.drop (i + 6) l = '>' :: List.drop (i + 7) l
      rw [h6, List.drop_append_eq_append_drop]
      have h67 : endTag.drop 6 = ['>'] := by decide
      have h77 : (6 : Nat) - endTag.length = 0 := by decide
      rw [h67, h77, List.drop_zero, List.drop_drop]
      rfl
  · intro l h
    rw [lastEndIdx?] at h
    rw [withoutPreceding, lastEndIdx?, h]

/-- C2, counterexample to the claim as stated: on `"<|end|>X"` the code's
step keeps `">X"`, not the text `"X"` strictly after the marker that the
specification describes. -/
theorem c2_counterexample :
    withoutPreceding "<|end|>X".data ≠ withoutPrecedingSpec "<|end|>X".data := by
  decide

/-- C2, witness: the amended theorem applied to `"a<|end|>b"`, whose last
marker starts at index 1. -/
theorem c2_witness :
    lastEndIdx? "a<|end|>b".data = some 1 ∧
    withoutPreceding "a<|end|>b".data = '>' :: "a<|end|>b".data.drop (1 + 7) :=
  ⟨by decide, (c2_amended_marker_step.1 "a<|end|>b".data 1 (by decide)).2.2⟩

/-- C1, counterexample: the cleanup is not idempotent on every input — on
`"> > hello"` one application strips a single blockquote level, leaving
`"> hello"`, and a second application strips another. -/
theorem c1_counterexample :
    parseEigenMessage (parseEigenMessage "> > hello") ≠ parseEigenMessage "> > hello" := by
  decide

/-- C1, amended: re-applying the cleanup to an already-clean string (a
fixed point of the cleanup) is a no-op, as the specification's own
already-clean sentence states; full idempotence fails
(`c1_counterexample`). -/
theorem c1_idempotent_on_clean (s : String) (h : parseEigenMessage s = s) :
    parseEigenMessage (parseEigenMessage s) = parseEigenMessage s := by
  rw [h, h]

/-- C1, witness: `"hello"` is already clean, and re-applying the cleanup
to it is a no-op. -/
theorem c1_witness :
    parseEigenMessage "hello" = "hello" ∧
    parseEigenMessage (parseEigenMessage "hello") = parseEigenMessage "hello" :=
  ⟨by decide, c1_idempotent_on_clean "hello" (by decide)⟩

/-- C3: the four literal cleanup expectations of the specification hold on
the code. -/
theorem c3_cleanup_literal_cases :
    parseEigenMessage "  <|start|>Hello<|end|> World  " = "World" ∧
    parseEigenMessage "> quoted line\nplain line" = "quoted line\nplain line" ∧
    parseEigenMessage "   " = "" ∧
    parseEigenMessage "<|end|>" = "" := by
  refine ⟨by decide, by decide, by decide, by decide⟩

lemma hexDigitVal_lt (c : Char) : hexDigitVal c < 16 := by
  unfold hexDigitVal
  split_ifs <;> omega

lemma hexVal_foldl_lt :
    ∀ (l : List Char) (acc : Nat),
      List.foldl (fun acc c => 16 * acc + hexDigitVal c) acc l < (acc + 1) * 16 ^ l.length := by
  intro l
  induction l with
  | nil => intro acc; simp
  | cons c t ih =>
    intro acc
    simp only [List.foldl_cons, List.length_cons]
    calc List.foldl (fun acc c => 16 * acc + hexDigitVal c) (16 * acc + hexDigitVal c) t
        < (16 * acc + hexDigitVal c + 1) * 16 ^ t.length := ih _
      _ ≤ ((acc + 1) * 16) * 16 ^ t.length := by
          have hd := hexDigitVal_lt c
          exact Nat.mul_le_mul_right _ (by omega)
      _ = (acc + 1) * 16 ^ (t.length + 1) := by ring

lemma hexVal_lt_two_pow (l : List Char) (h : l.length = 8) : hexVal l < 2 ^ 32 := by
  have := hexVal_foldl_lt l 0
  rw [h] at this
  simpa using this

lemma isHexDigit_not_ws (c : Char) (h : isHexDigit c = true) : isWs c = false := by
  simp only [isHexDigit, decide_eq_true_eq] at h
  simp only [isWs, decide_eq_false_iff_not]
  omega

lemma jsAnd31_of_lt (v : Nat) (h : v < 2 ^ 32) : jsAnd31 (v : Int) = v % 2 ^ 31 := by
  have h' : v < 4294967296 := by omega
  show (((if (v : Int) % 4294967296 < 2147483648 then (v : Int) % 4294967296
      else (v : Int) % 4294967296 - 4294967296)) % 2147483648).toNat = v % 2147483648
  split <;> omega

/-- C4: for any string whose first 8 hyphen-free characters are
hexadecimal digits (every version-4 UUID in particular), `uuidToSeed`
parses those 8 characters as an unsigned integer and masks to the low 31
bits, a result in `[0, 2^31 − 1]`; and (final conjunct) a parsing failure
yields seed 0. -/
theorem c4_uuidToSeed_spec (s : String)
    (h8 : ((s.data.filter fun c => c ≠ '-').take 8).length = 8)
    (hhex : ∀ c ∈ (s.data.filter fun c => c ≠ '-').take 8, isHexDigit c = true) :
    uuidToSeed s = hexVal ((s.data.filter fun c => c ≠ '-').take 8) % 2 ^ 31 ∧
    uuidToSeed s ≤ 2 ^ 31 - 1 ∧
    ∀ t : String,
      parseIntHex ((t.data.filter fun c => c ≠ '-').take 8) = none → uuidToSeed t = 0 := by
  have hthird : ∀ t : String,
      parseIntHex ((t.data.filter fun c => c ≠ '-').take 8) = none → uuidToSeed t = 0 := by
    intro t hnone
    show jsAnd31 ((parseIntHex ((t.data.filter fun c => c ≠ '-').take 8)).getD 0) = 0
    rw [hnone]
    decide
  set hex := (s.data.filter fun c => c ≠ '-').take 8 with hhexdef
  obtain ⟨a, t1, hcons⟩ := List.exists_of_length_succ hex (by omega : hex.length = 7 + 1)
  have ht1 : t1.length = 6 + 1 := by
    have := h8
    rw [hcons] at this
    simpa using this
  obtain ⟨b, t2, hcons2⟩ := List.exists_of_length_succ t1 ht1
  have haHex : isHexDigit a = true := hhex a (by rw [hcons]; exact List.mem_cons_self a t1)
  have hbHex : isHexDigit b = true := hhex b (by rw [hcons, hcons2]; simp)
  have hws : hex.dropWhile isWs = hex := by
    rw [hcons]
    exact List.dropWhile_cons_of_neg (by rw [isHexDigit_not_ws a haHex]; simp)
  have hsign : signSplit hex = (false, hex) := by
    rw [hcons, signSplit]
    have hm : a ≠ '-' := by
      intro hEq
      rw [hEq] at haHex
      exact absurd haHex (by decide)
    have hp : a ≠ '+' := by
      intro hEq
      rw [hEq] at haHex
      exact absurd haHex (by decide)
    rw [if_neg hm, if_neg hp]
  have hstrip : strip0x hex = hex := by
    rw [hcons, hcons2, strip0x]
    have hx : ¬(a = '0' ∧ (b = 'x' ∨ b = 'X')) := by
      rintro ⟨-, hb | hb⟩ <;> rw [hb] at hbHex <;> exact absurd hbHex (by decide)
    rw [if_neg hx]
  have htw : hex.takeWhile isHexDigit = hex :=
    List.takeWhile_eq_self_iff.mpr hhex
  have hne : hex ≠ [] := by rw [hcons]; simp
  have hparse : parseIntHex hex = some (hexVal hex : Int) := by
    simp only [parseIntHex, hws, hsign, hstrip, htw]
    rw [if_neg hne]
    simp
  have hseed : uuidToSeed s = hexVal hex % 2 ^ 31 := by
    simp only [uuidToSeed, ← hhexdef, hparse, Option.getD_some]
    exact jsAnd31_of_lt (hexVal hex) (hexVal_lt_two_pow hex h8)
  refine ⟨hseed, ?_, hthird⟩
  rw [hseed]
  have : hexVal hex % 2 ^ 31 < 2 ^ 31 := Nat.mod_lt _ (by norm_num)
  omega

/-- C4, witness: the spec theorem applied to a concrete version-4 UUID. -/
theorem c4_witness :
    (("123e4567-e89b-42d3-a456-426614174000".data.filter fun c => c ≠ '-').take 8).length = 8 ∧
    uuidToSeed "123e4567-e89b-42d3-a456-426614174000" =
      hexVal (("123e4567-e89b-42d3-a456-426614174000".data.filter
        fun c => c ≠ '-').take 8) % 2 ^ 31 :=
  ⟨by decide, (c4_uuidToSeed_spec "123e4567-e89b-42d3-a456-426614174000"
    (by decide) (by decide)).1⟩

/-- C5, counterexample to the claim as stated: `runs = Infinity` (reachable
from JSON as `1e999`) is non-finite, but the effective run count is
`MAX_RUNS = 8`, not 4 — the source applies no `Number.isFinite` check to
`runs`, only `?? 4` for an absent value. -/
theorem c5_counterexample :
    effRuns (some .posInf) ≠ .fin 4 ∧ effRuns (some .posInf) = .fin 8 :=
  ⟨by decide, by decide⟩

/-- C5, amended: the effective run count is 4 when `runs` is absent, and
`floor(runs)` clamped into `[MIN_RUNS, MAX_RUNS]` (to the nearest bound,
never rejected) when `runs` is finite; a non-finite `runs` is not
defaulted: `NaN` propagates, `+∞` clamps to `MAX_RUNS` and `-∞` to
`MIN_RUNS`. -/
theorem c5_amended_run_count :
    effRuns none = .fin 4 ∧
    (∀ q : ℚ, 1 ≤ ⌊q⌋ → ⌊q⌋ ≤ 8 → effRuns (some (.fin q)) = .fin (⌊q⌋ : ℚ)) ∧
    (∀ q : ℚ, ⌊q⌋ < 1 → effRuns (some (.fin q)) = .fin MIN_RUNS) ∧
    (∀ q : ℚ, 8 < ⌊q⌋ → effRuns (some (.fin q)) = .fin MAX_RUNS) ∧
    effRuns (some .nan) = .nan ∧
    effRuns (some .posInf) = .fin MAX_RUNS ∧
    effRuns (some .negInf) = .fin MIN_RUNS := by
  refine ⟨by decide, ?_, ?_, ?_, by decide, by decide, by decide⟩
  · intro q h1 h8
    show JSNum.fin (min (max ((⌊q⌋ : ℚ)) 1) 8) = .fin (⌊q⌋ : ℚ)
    have h1' : (1 : ℚ) ≤ ((⌊q⌋ : ℚ)) := by exact_mod_cast h1
    have h8' : ((⌊q⌋ : ℚ)) ≤ 8 := by exact_mod_cast h8
    rw [max_eq_left h1', min_eq_left h8']
  · intro q h1
    show JSNum.fin (min (max ((⌊q⌋ : ℚ)) 1) 8) = .fin 1
    have h1' : ((⌊q⌋ : ℚ)) ≤ 1 := by exact_mod_cast h1.le
    rw [max_eq_right h1', min_eq_left (by norm_num : (1 : ℚ) ≤ 8)]
  · intro q h8
    show JSNum.fin (min (max ((⌊q⌋ : ℚ)) 1) 8) = .fin 8
    have h8' : (8 : ℚ) ≤ ((⌊q⌋ : ℚ)) := by exact_mod_cast h8.le
    have h1' : (1 : ℚ) ≤ ((⌊q⌋ : ℚ)) := by linarith
    rw [max_eq_left h1', min_eq_right h8']

/-- C5, witness: `runs = 7/2` is floored to 3 and lies inside the bounds,
so the effective run count is 3. -/
theorem c5_witness :
    (1 : ℤ) ≤ ⌊(7 / 2 : ℚ)⌋ ∧ ⌊(7 / 2 : ℚ)⌋ ≤ 8 ∧
    effRuns (some (.fin (7 / 2))) = .fin ((⌊(7 / 2 : ℚ)⌋ : ℚ)) := by
  have h3 : ⌊(7 / 2 : ℚ)⌋ = 3 := by
    rw [Int.floor_eq_iff]
    norm_num
  refine ⟨by omega, by omega, ?_⟩
  exact c5_amended_run_count.2.1 (7 / 2) (by omega) (by omega)

/-- C6: an absent, empty, or whitespace-only prompt yields the 400
validation response with the fixed human-readable message, and zero
upstream calls are issued — whatever the credentials, the rest of the
body, the UUID and the network do. -/
theorem c6_empty_prompt_validation (body : CompareRequest) (env : Env) (uuid : String)
    (net1 net2 net3 : Nat → FetchOutcome × Nat)
    (h : body.prompt = none ∨ ∃ s, body.prompt = some s ∧ jsTrim s = "") :
    (POST body env uuid net1 net2 net3).1 = .err 400 "Prompt is required." ∧
    (POST body env uuid net1 net2 net3).2 = 0 := by
  rcases h with h | ⟨s, hs, hts⟩
  · simp [POST, h]
  · simp [POST, hs, hts]

/-- C6, witness: a whitespace-only prompt is rejected with 400 and no
upstream call, even with credentials configured. -/
theorem c6_witness :
    (POST ⟨some "   ", none, none, none, none⟩ ⟨some "k1", some "k2", none⟩ ""
      (fun _ => (.transportError "", 0)) (fun _ => (.transportError "", 0))
      (fun _ => (.transportError "", 0))).1 = .err 400 "Prompt is required." ∧
    (POST ⟨some "   ", none, none, none, none⟩ ⟨some "k1", some "k2", none⟩ ""
      (fun _ => (.transportError "", 0)) (fun _ => (.transportError "", 0))
      (fun _ => (.transportError "", 0))).2 = 0 :=
  c6_empty_prompt_validation _ _ _ _ _ _ (Or.inr ⟨"   ", rfl, by decide⟩)

/-- C7, counterexample to the claim as stated: a request with a missing
credential but also a missing prompt fails with the 400 validation
response, not with a 500 configuration response — prompt validation runs
first. -/
theorem c7_counterexample :
    (POST ⟨none, none, none, none, none⟩ ⟨none, none, none⟩ ""
      (fun _ => (.transportError "", 0)) (fun _ => (.transportError "", 0))
      (fun _ => (.transportError "", 0))).1 = .err 400 "Prompt is required." ∧
    ApiResponse.err 400 "Prompt is required." ≠
      .err 500 "Missing OPENAI_API_KEY environment variable." :=
  ⟨by decide, by decide⟩

/-- C7, amended: for every request whose prompt survives validation, a
missing (or empty) OpenAI credential yields the 500 response naming
`OPENAI_API_KEY`, and otherwise a missing EigenAI credential yields the
500 response naming `EIGENAI_API_KEY`; in both cases zero upstream calls
are issued. -/
theorem c7_amended_missing_credential (body : CompareRequest) (env : Env) (uuid : String)
    (net1 net2 net3 : Nat → FetchOutcome × Nat) (s : String)
    (hs : body.prompt = some s) (hne : jsTrim s ≠ "") :
    (falsy env.openaiKey = true →
      (POST body env uuid net1 net2 net3).1 =
        .err 500 "Missing OPENAI_API_KEY environment variable." ∧
      (POST body env uuid net1 net2 net3).2 = 0) ∧
    (falsy env.openaiKey = false → falsy env.eigenKey = true →
      (POST body env uuid net1 net2 net3).1 =
        .err 500 "Missing EIGENAI_API_KEY environment variable." ∧
      (POST body env uuid net1 net2 net3).2 = 0) := by
  constructor
  · intro hok
    simp [POST, hs, hne, hok]
  · intro hok heig
    simp [POST, hs, hne, hok, heig]

/-- C7, witness: a valid prompt with no OpenAI credential set yields the
500 response naming `OPENAI_API_KEY` and no upstream call. -/
theorem c7_witness :
    (POST ⟨some "hi", none, none, none, none⟩ ⟨none, some "k2", none⟩ ""
      (fun _ => (.transportError "", 0)) (fun _ => (.transportError "", 0))
      (fun _ => (.transportError "", 0))).1 =
      .err 500 "Missing OPENAI_API_KEY environment variable." ∧
    (POST ⟨some "hi", none, none, none, none⟩ ⟨none, some "k2", none⟩ ""
      (fun _ => (.transportError "", 0)) (fun _ => (.transportError "", 0))
      (fun _ => (.transportError "", 0))).2 = 0 :=
  (c7_amended_missing_credential _ _ _ _ _ _ "hi" rfl (by decide)).1 (by decide)

lemma mapOk_result {E A B : Type} (s : Settled E A) (f : A → B) :
    (s.mapOk f).result = s.result.map f := rfl

lemma settledFailed_mapOk {E A B : Type} (s : Settled E A) (f : A → B) :
    settledFailed (s.mapOk f) = settledFailed s := by
  rcases s with ⟨t, r⟩
  cases r <;> rfl

lemma all2_fail {E A B : Type} (x : Settled E A) (y : Settled E B)
    (h : settledFailed x = true ∨ settledFailed y = true) :
    settledFailed (x.all2 y) = true := by
  rcases x with ⟨tx, rx⟩
  rcases y with ⟨ty, ry⟩
  cases rx with
  | error e =>
    cases ry with
    | error f =>
      show settledFailed (if ty < tx then ⟨ty, .error f⟩ else ⟨tx, .error e⟩) = true
      split <;> rfl
    | ok b => rfl
  | ok a =>
    cases ry with
    | error f => rfl
    | ok b =>
      rcases h with h | h <;> simp [settledFailed] at h

lemma promiseAll_fail {E A : Type} (ps : List (Settled E A))
    (h : ∃ p ∈ ps, settledFailed p = true) :
    settledFailed (promiseAll ps) = true := by
  induction ps with
  | nil =>
    rcases h with ⟨p, hp, -⟩
    cases hp
  | cons q qs ih =>
    rcases h with ⟨p, hp, hf⟩
    show settledFailed ((q.all2 (promiseAll qs)).mapOk fun x => x.1 :: x.2) = true
    rw [settledFailed_mapOk]
    rcases List.mem_cons.mp hp with rfl | hmem
    · exact all2_fail _ _ (Or.inl hf)
    · exact all2_fail _ _ (Or.inr (ih ⟨p, hmem, hf⟩))

lemma settledFailed_iff {E A : Type} (s : Settled E A) :
    settledFailed s = true ↔ ∃ e, s.result = .error e := by
  rcases s with ⟨t, r⟩
  cases r with
  | error e => simp [settledFailed]
  | ok a => simp [settledFailed]

lemma all2_ok {E A B : Type} {x : Settled E A} {y : Settled E B} {a : A} {b : B}
    (h : (x.all2 y).result = .ok (a, b)) : x.result = .ok a ∧ y.result = .ok b := by
  rcases x with ⟨tx, rx⟩
  rcases y with ⟨ty, ry⟩
  cases rx with
  | error e =>
    cases ry with
    | error f =>
      exfalso
      have : (Settled.all2 ⟨tx, .error e⟩ ⟨ty, Except.error (α := B) f⟩).result =
          (if ty < tx then (⟨ty, .error f⟩ : Settled E (A × B)) else ⟨tx, .error e⟩).result := by
        show (if ty < tx then (⟨ty, .error f⟩ : Settled E (A × B)) else ⟨tx, .error e⟩).result = _
        rfl
      rw [this] at h
      split at h <;> cases h
    | ok b' => cases h
  | ok a' =>
    cases ry with
    | error f => cases h
    | ok b' =>
      have h' : Except.ok (ε := E) (a', b') = .ok (a, b) := h
      cases h'
      exact ⟨rfl, rfl⟩

lemma promiseAll_ok_iff {E A : Type} (ps : List (Settled E A)) (vs : List A) :
    (promiseAll ps).result = .ok vs ↔
      List.Forall₂ (fun p a => p.result = Except.ok a) ps vs := by
  induction ps generalizing vs with
  | nil =>
    constructor
    · intro h
      have hv : vs = [] := by
        have h' : Except.ok (ε := E) ([] : List A) = .ok vs := h
        cases h'
        rfl
      subst hv
      exact List.Forall₂.nil
    · intro h
      cases h
      rfl
  | cons q qs ih =>
    constructor
    · intro h
      have h' : ((q.all2 (promiseAll qs)).result).map (fun x => x.1 :: x.2) = .ok vs := h
      rcases hq : (q.all2 (promiseAll qs)).result with e | ⟨a, l⟩
      · rw [hq] at h'
        cases h'
      · rw [hq] at h'
        have hv : a :: l = vs := by
          have h'' : Except.ok (ε := E) (a :: l) = .ok vs := h'
          cases h''
          rfl
        subst hv
        obtain ⟨hqa, hrest⟩ := all2_ok hq
        exact List.Forall₂.cons hqa ((ih l).mp hrest)
    · intro h
      cases h with
      | cons hqa htail =>
        rename_i a l
        have hrest : (promiseAll qs).result = .ok l := (ih l).mpr htail
        show ((q.all2 (promiseAll qs)).result).map (fun x => x.1 :: x.2) = _
        have : (q.all2 (promiseAll qs)).result = .ok (a, l) := by
          rcases q with ⟨tq, rq⟩
          rcases hpq : promiseAll qs with ⟨tr, rr⟩
          rw [hpq] at hrest
          have hrr : rr = .ok l := hrest
          subst hrr
          have hrq : rq = .ok a := hqa
          subst hrq
          rfl
        rw [this]
        rfl

lemma promiseAll_ok_length {E A : Type} {ps : List (Settled E A)} {vs : List A}
    (h : (promiseAll ps).result = .ok vs) : vs.length = ps.length :=
  (((promiseAll_ok_iff ps vs).mp h).length_eq).symm

lemma promiseAll_map_range_ok {E A : Type} (n : Nat) (g : Nat → Settled E A) (v : Nat → A)
    (h : ∀ i < n, (g i).result = .ok (v i)) :
    (promiseAll ((List.range n).map g)).result = .ok ((List.range n).map v) := by
  rw [promiseAll_ok_iff, List.forall₂_map_left_iff, List.forall₂_map_right_iff]
  rw [List.forall₂_same]
  intro i hi
  exact h i (List.mem_range.mp hi)

/-- C8: once the fan-out is reached, the failure of any single upstream
call in any of the three groups — an abort at the OpenAI timeout, a
non-2xx status, or a transport failure all make that call's settled
result a rejection — makes the whole request fail with the fixed generic
500 response, independent of the failing call's error text and with no
partial payload. -/
theorem c8_upstream_failure_rejects_all (body : CompareRequest) (env : Env) (uuid : String)
    (net1 net2 net3 : Nat → FetchOutcome × Nat) (s : String)
    (hs : body.prompt = some s) (hne : jsTrim s ≠ "")
    (hok : falsy env.openaiKey = false) (heig : falsy env.eigenKey = false)
    (hfail :
      (∃ i, i < jsLength (effRuns body.runs) ∧ settledFailed (openaiCall (net1 i)) = true) ∨
      (∃ i, i < jsLength (effRuns body.runs) ∧ settledFailed (eigenCall (net2 i)) = true) ∨
      (∃ i, i < jsLength (effRuns body.runs) ∧ settledFailed (eigenCall (net3 i)) = true)) :
    (POST body env uuid net1 net2 net3).1 =
      .err 500 "Failed to compare models. Check server logs for details." := by
  have hg1 : ∀ net : Nat → FetchOutcome × Nat,
      (∃ i, i < jsLength (effRuns body.runs) ∧ settledFailed (openaiCall (net i)) = true) →
      settledFailed (collectOpenAiRuns OPENAI_MODEL (effRuns body.runs) net) = true := by
    intro net ⟨i, hi, hf⟩
    show settledFailed ((promiseAll ((List.range (jsLength (effRuns body.runs))).map
      fun i => openaiCall (net i))).mapOk _) = true
    rw [settledFailed_mapOk]
    exact promiseAll_fail _ ⟨openaiCall (net i),
      List.mem_map_of_mem _ (List.mem_range.mpr hi), hf⟩
  have hg2 : ∀ (net : Nat → FetchOutcome × Nat) (seed : JSNum) (su : Option String),
      (∃ i, i < jsLength (effRuns body.runs) ∧ settledFailed (eigenCall (net i)) = true) →
      settledFailed (collectEigenRuns EIGENAI_MODEL seed (effRuns body.runs) su net) = true := by
    intro net seed su ⟨i, hi, hf⟩
    show settledFailed ((promiseAll ((List.range (jsLength (effRuns body.runs))).map
      fun i => eigenCall (net i))).mapOk _) = true
    rw [settledFailed_mapOk]
    exact promiseAll_fail _ ⟨eigenCall (net i),
      List.mem_map_of_mem _ (List.mem_range.mpr hi), hf⟩
  have hcomb : settledFailed
      ((collectOpenAiRuns OPENAI_MODEL (effRuns body.runs) net1).all2
        ((collectEigenRuns EIGENAI_MODEL (eigenSeedVal body env) (effRuns body.runs) none net2).all2
          (collectEigenRuns EIGENAI_MODEL (.fin ((uuidToSeed uuid : ℚ))) (effRuns body.runs)
            (some uuid) net3))) = true := by
    rcases hfail with hf | hf | hf
    · exact all2_fail _ _ (Or.inl (hg1 net1 hf))
    · exact all2_fail _ _ (Or.inr (all2_fail _ _ (Or.inl (hg2 net2 _ _ hf))))
    · exact all2_fail _ _ (Or.inr (all2_fail _ _ (Or.inr (hg2 net3 _ _ hf))))
  obtain ⟨e, he⟩ := (settledFailed_iff _).mp hcomb
  simp only [POST, hs, Option.map_some', hne, if_neg, hok, heig, Bool.false_eq_true,
    if_false, he]

/-- C8, witness: with one run per group, a single OpenAI 500 makes the
whole comparison fail with the generic 500 response. -/
theorem c8_witness :
    (POST ⟨some "hi", some (.fin 1), none, none, none⟩ ⟨some "k1", some "k2", none⟩ ""
      (fun _ => (.httpError 500 "boom", 3))
      (fun _ => (.okResp ⟨none, [], none⟩, 5))
      (fun _ => (.okResp ⟨none, [], none⟩, 7))).1 =
      .err 500 "Failed to compare models. Check server logs for details." :=
  c8_upstream_failure_rejects_all _ _ _ _ _ _ "hi" rfl (by decide) (by decide) (by decide)
    (Or.inl ⟨0, by decide, by decide⟩)

lemma jsLength_natCast (n : Nat) : jsLength (.fin (n : ℚ)) = n := by
  simp [jsLength]

lemma openaiCall_ok (c : FetchOutcome × Nat) (d : ChatResponse)
    (hc : c.1 = .okResp d) (ht : c.2 < OPENAI_TIMEOUT_MS) :
    openaiCall c = ⟨c.2, .ok (openaiRunResult d)⟩ := by
  rw [openaiCall, if_neg (by omega), hc]

lemma eigenCall_ok (c : FetchOutcome × Nat) (d : ChatResponse)
    (hc : c.1 = .okResp d) :
    eigenCall c = ⟨c.2, .ok (eigenRunResult d)⟩ := by
  rw [eigenCall, hc]

/-- C9: within each group, for every run count `n` and every assignment of
completion times to the `n` parallel calls (arbitrary for EigenAI,
below the abort deadline for OpenAI), the `responses` array lists the
results by logical run index — entry `i` is the result of call `i` —
never by completion order. -/
theorem c9_run_index_ordering (n : Nat) (model : String) (seedVal : JSNum)
    (seedUuid : Option String) (net1 net2 : Nat → FetchOutcome × Nat)
    (d1 d2 : Nat → ChatResponse)
    (h1 : ∀ i, i < n → (net1 i).1 = .okResp (d1 i))
    (ht : ∀ i, i < n → (net1 i).2 < OPENAI_TIMEOUT_MS)
    (h2 : ∀ i, i < n → (net2 i).1 = .okResp (d2 i)) :
    (collectOpenAiRuns model (.fin (n : ℚ)) net1).result =
      .ok { model := model, seed := none, runs := .fin (n : ℚ),
            responses := (List.range n).map fun i => openaiRunResult (d1 i),
            seedUuid := none } ∧
    (collectEigenRuns model seedVal (.fin (n : ℚ)) seedUuid net2).result =
      .ok { model := model, seed := some seedVal, runs := .fin (n : ℚ),
            responses := (List.range n).map fun i => eigenRunResult (d2 i),
            seedUuid := seedUuid } := by
  constructor
  · show ((promiseAll ((List.range (jsLength (.fin (n : ℚ)))).map
      fun i => openaiCall (net1 i))).mapOk _).result = _
    rw [mapOk_result, jsLength_natCast]
    have hall : (promiseAll ((List.range n).map fun i => openaiCall (net1 i))).result =
        .ok ((List.range n).map fun i => openaiRunResult (d1 i)) := by
      refine promiseAll_map_range_ok n _ _ fun i hi => ?_
      rw [openaiCall_ok (net1 i) (d1 i) (h1 i hi) (ht i hi)]
    rw [hall]
    rfl
  · show ((promiseAll ((List.range (jsLength (.fin (n : ℚ)))).map
      fun i => eigenCall (net2 i))).mapOk _).result = _
    rw [mapOk_result, jsLength_natCast]
    have hall : (promiseAll ((List.range n).map fun i => eigenCall (net2 i))).result =
        .ok ((List.range n).map fun i => eigenRunResult (d2 i)) := by
      refine promiseAll_map_range_ok n _ _ fun i hi => ?_
      rw [eigenCall_ok (net2 i) (d2 i) (h2 i hi)]
    rw [hall]
    rfl

/-- C9, witness: three runs per group whose completion times are reversed
(call 0 finishes last, call 2 first) still collect by run index. -/
theorem c9_witness :
    (collectOpenAiRuns "m" (.fin ((3 : Nat) : ℚ))
      (fun i => (.okResp ⟨some (toString i), [], none⟩, 30 - 10 * i))).result =
      .ok { model := "m", seed := none, runs := .fin ((3 : Nat) : ℚ),
            responses := (List.range 3).map fun i =>
              openaiRunResult ⟨some (toString i), [], none⟩,
            seedUuid := none } ∧
    (collectEigenRuns "m" (.fin 42) (.fin ((3 : Nat) : ℚ)) none
      (fun i => (.okResp ⟨some (toString i), [], none⟩, 30 - 10 * i))).result =
      .ok { model := "m", seed := some (.fin 42), runs := .fin ((3 : Nat) : ℚ),
            responses := (List.range 3).map fun i =>
              eigenRunResult ⟨some (toString i), [], none⟩,
            seedUuid := none } :=
  c9_run_index_ordering 3 "m" (.fin 42) none
    (fun i => (.okResp ⟨some (toString i), [], none⟩, 30 - 10 * i))
    (fun i => (.okResp ⟨some (toString i), [], none⟩, 30 - 10 * i))
    (fun i => ⟨some (toString i), [], none⟩) (fun i => ⟨some (toString i), [], none⟩)
    (fun i _ => rfl) (fun i hi => by interval_cases i <;> decide) (fun i _ => rfl)

lemma collectOpenAiRuns_ok_shape (model : String) (runsVal : JSNum)
    (net : Nat → FetchOutcome × Nat) (a : GroupResult)
    (h : (collectOpenAiRuns model runsVal net).result = .ok a) :
    a.runs = runsVal ∧ a.responses.length = jsLength runsVal := by
  have h' : ((promiseAll ((List.range (jsLength runsVal)).map
      fun i => openaiCall (net i))).result).map
      (fun rs => (⟨model, none, runsVal, rs, none⟩ : GroupResult)) = .ok a := h
  rcases hsub : (promiseAll ((List.range (jsLength runsVal)).map
      fun i => openaiCall (net i))).result with e | rs
  · rw [hsub] at h'
    cases h'
  · rw [hsub] at h'
    have h'' : Except.ok (ε := String)
        (⟨model, none, runsVal, rs, none⟩ : GroupResult) = .ok a := h'
    injection h'' with h3
    subst h3
    refine ⟨rfl, ?_⟩
    have hlen := promiseAll_ok_length hsub
    simpa using hlen

lemma collectEigenRuns_ok_shape (model : String) (seed : JSNum) (runsVal : JSNum)
    (seedUuid : Option String) (net : Nat → FetchOutcome × Nat) (a : GroupResult)
    (h : (collectEigenRuns model seed runsVal seedUuid net).result = .ok a) :
    a.runs = runsVal ∧ a.responses.length = jsLength runsVal := by
  have h' : ((promiseAll ((List.range (jsLength runsVal)).map
      fun i => eigenCall (net i))).result).map
      (fun rs => (⟨model, some seed, runsVal, rs, seedUuid⟩ : GroupResult)) = .ok a := h
  rcases hsub : (promiseAll ((List.range (jsLength runsVal)).map
      fun i => eigenCall (net i))).result with e | rs
  · rw [hsub] at h'
    cases h'
  · rw [hsub] at h'
    have h'' : Except.ok (ε := String)
        (⟨model, some seed, runsVal, rs, seedUuid⟩ : GroupResult) = .ok a := h'
    injection h'' with h3
    subst h3
    refine ⟨rfl, ?_⟩
    have hlen := promiseAll_ok_length hsub
    simpa using hlen

lemma effRuns_fin_of_ne_nan (r? : Option JSNum) (h : r? ≠ some .nan) :
    ∃ k : ℤ, effRuns r? = .fin ((k : ℚ)) ∧ 1 ≤ k ∧ k ≤ 8 ∧
      jsLength (effRuns r?) = k.toNat := by
  rcases r? with - | x
  · refine ⟨4, ?_, by norm_num, by norm_num, by decide⟩
    have h4 : ((4 : ℤ) : ℚ) = 4 := by norm_num
    rw [h4]
    decide
  · rcases x with - | - | - | q
    · exact absurd rfl h
    · refine ⟨8, ?_, by norm_num, by norm_num, by decide⟩
      have h8 : ((8 : ℤ) : ℚ) = 8 := by norm_num
      rw [h8]
      decide
    · refine ⟨1, ?_, by norm_num, by norm_num, by decide⟩
      have h1 : ((1 : ℤ) : ℚ) = 1 := by norm_num
      rw [h1]
      decide
    · refine ⟨min (max ⌊q⌋ 1) 8, ?_, ?_, min_le_right _ _, ?_⟩
      · show JSNum.fin (min (max ((⌊q⌋ : ℚ)) 1) 8) = .fin ((min (max ⌊q⌋ 1) 8 : ℤ) : ℚ)
        congr 1
        push_cast
        rfl
      · exact le_min (le_max_right _ _) (by norm_num)
      · show jsLength (.fin (min (max ((⌊q⌋ : ℚ)) 1) 8)) = _
        have hc : (min (max ((⌊q⌋ : ℚ)) 1) 8) = ((min (max ⌊q⌋ 1) 8 : ℤ) : ℚ) := by
          push_cast
          rfl
        rw [hc]
        show (⌊((min (max ⌊q⌋ 1) 8 : ℤ) : ℚ)⌋).toNat = _
        rw [Int.floor_intCast]

/-- C10, counterexample to the claim as stated: a request with
`runs = NaN` (a JavaScript number the typed body admits) succeeds with a
200 payload whose groups carry `runs = NaN` and empty `responses` arrays,
so the `runs` field matches neither the effective run count (0) nor the
`responses` length. -/
theorem c10_counterexample :
    ((POST ⟨some "x", some .nan, none, none, none⟩ ⟨some "k1", some "k2", none⟩ ""
        (fun _ => (.transportError "", 0)) (fun _ => (.transportError "", 0))
        (fun _ => (.transportError "", 0))).1.okPayload?.map
      fun p => (p.openai.runs, p.openai.responses.length)) = some (.nan, 0) ∧
    JSNum.nan ≠ .fin 0 :=
  ⟨by decide, by decide⟩

/-- C10, amended: for every request whose `runs` field is not `NaN`, a
successful (200) comparison response has, in each of the three groups, a
`runs` field equal (as a number) to the length of that group's `responses`
array, and that length equals the effective run count
`jsLength (effRuns runs)`. -/
theorem c10_amended_group_counts (body : CompareRequest) (env : Env) (uuid : String)
    (net1 net2 net3 : Nat → FetchOutcome × Nat) (p : ComparePayload)
    (hnan : body.runs ≠ some .nan)
    (hp : (POST body env uuid net1 net2 net3).1 = .ok 200 p) :
    (p.openai.runs = .fin ((p.openai.responses.length : ℚ)) ∧
      p.openai.responses.length = jsLength (effRuns body.runs)) ∧
    (p.eigen.runs = .fin ((p.eigen.responses.length : ℚ)) ∧
      p.eigen.responses.length = jsLength (effRuns body.runs)) ∧
    (p.eigenRandom.runs = .fin ((p.eigenRandom.responses.length : ℚ)) ∧
      p.eigenRandom.responses.length = jsLength (effRuns body.runs)) := by
  rcases hpr : body.prompt with - | s
  · simp [POST, hpr] at hp
  · by_cases hts : jsTrim s = ""
    · simp [POST, hpr, hts] at hp
    · by_cases hok : falsy env.openaiKey
      · simp [POST, hpr, hts, hok] at hp
      · by_cases heig : falsy env.eigenKey
        · simp [POST, hpr, hts, hok, heig] at hp
        · have hok' : falsy env.openaiKey = false := by simpa using hok
          have heig' : falsy env.eigenKey = false := by simpa using heig
          simp only [POST, hpr, Option.map_some', if_neg hts, hok', heig',
            Bool.false_eq_true, if_false] at hp
          rcases hres : ((collectOpenAiRuns OPENAI_MODEL (effRuns body.runs) net1).all2
              ((collectEigenRuns EIGENAI_MODEL (eigenSeedVal body env)
                  (effRuns body.runs) none net2).all2
                (collectEigenRuns EIGENAI_MODEL (.fin ((uuidToSeed uuid : ℚ)))
                  (effRuns body.runs) (some uuid) net3))).result with e | abc
          · rw [hres] at hp
            have hp2 : ApiResponse.err 500
                "Failed to compare models. Check server logs for details." = .ok 200 p := hp
            cases hp2
          · rcases abc with ⟨a, b, c⟩
            rw [hres] at hp
            have hp' : ApiResponse.ok 200
                { prompt := jsTrim s, openai := a, eigen := b, eigenRandom := c } =
                .ok 200 p := hp
            injection hp' with h1 h2
            subst h2
            obtain ⟨ha, hbc⟩ := all2_ok hres
            obtain ⟨hb, hc⟩ := all2_ok hbc
            obtain ⟨har, hal⟩ := collectOpenAiRuns_ok_shape _ _ _ _ ha
            obtain ⟨hbr, hbl⟩ := collectEigenRuns_ok_shape _ _ _ _ _ _ hb
            obtain ⟨hcr, hcl⟩ := collectEigenRuns_ok_shape _ _ _ _ _ _ hc
            obtain ⟨k, hk, hk1, hk8, hkl⟩ := effRuns_fin_of_ne_nan body.runs hnan
            have hcast : ((k.toNat : ℕ) : ℚ) = ((k : ℤ) : ℚ) := by
              have hkk : (k.toNat : ℤ) = k := Int.toNat_of_nonneg (by omega)
              exact_mod_cast hkk
            refine ⟨⟨?_, hal⟩, ⟨?_, hbl⟩, ⟨?_, hcl⟩⟩
            · rw [har, hk, hal, hkl, hcast]
            · rw [hbr, hk, hbl, hkl, hcast]
            · rw [hcr, hk, hcl, hkl, hcast]

/-- Network oracle used by the C10 witness: every call returns an empty
2xx chat response after 1ms. -/
def netW : Nat → FetchOutcome × Nat := fun _ => (.okResp ⟨none, [], none⟩, 1)

/-- Request body used by the C10 witness: a valid prompt, `runs` absent. -/
def bodyW : CompareRequest := ⟨some "hi", none, none, none, none⟩

/-- Environment used by the C10 witness: both credentials set. -/
def envW : Env := ⟨some "k1", some "k2", none⟩

/-- The run entry produced from an empty 2xx chat response. -/
def runW : RunResult := { responseId := none, message := "", finishReason := none, usage := none }

/-- The payload `POST bodyW envW "" netW netW netW` produces: four
identical runs per group (the default run count). -/
def payloadW : ComparePayload :=
  { prompt := "hi"
    openai := { model := OPENAI_MODEL, seed := none, runs := effRuns none,
                responses := [runW, runW, runW, runW], seedUuid := none }
    eigen := { model := EIGENAI_MODEL, seed := some (eigenSeedVal bodyW envW),
               runs := effRuns none, responses := [runW, runW, runW, runW], seedUuid := none }
    eigenRandom := { model := EIGENAI_MODEL, seed := some (.fin ((uuidToSeed "" : ℚ))),
                     runs := effRuns none, responses := [runW, runW, runW, runW],
                     seedUuid := some "" } }

/-- C10, witness: the amended theorem applied to a successful concrete
comparison with the default run count of 4. -/
theorem c10_witness :
    (payloadW.openai.runs = .fin ((payloadW.openai.responses.length : ℚ)) ∧
      payloadW.openai.responses.length = jsLength (effRuns bodyW.runs)) ∧
    (payloadW.eigen.runs = .fin ((payloadW.eigen.responses.length : ℚ)) ∧
      payloadW.eigen.responses.length = jsLength (effRuns bodyW.runs)) ∧
    (payloadW.eigenRandom.runs = .fin ((payloadW.eigenRandom.responses.length : ℚ)) ∧
      payloadW.eigenRandom.responses.length = jsLength (effRuns bodyW.runs)) :=
  c10_amended_group_counts bodyW envW "" netW netW netW payloadW (by decide) rfl

end Verifai
